import Mathlib

/-
Verification of src/Mile.Xaml/Mile.Project.Properties.h, a configuration
header made of C preprocessor definitions. The header is embedded shallowly:
each object-like definition becomes a Lean constant, the whole header becomes
a static table of name/value pairs in file order, and the preprocessor
behaviour of including the header (the MILE_PROJECT_PROPERTIES guard plus the
trailing inclusion of Mile.Project.Version.h, which sits outside the guard)
becomes a state-passing function on the set of defined names.
-/

/-- Value bound by an object-like preprocessor definition in the header:
an integer literal, a string literal, or nothing (the bare guard token). -/
inductive PropValue where
  | intVal (n : Int)
  | strVal (s : String)
  | emptyVal
  deriving DecidableEq, Repr

/-- MILE_PROJECT_VERSION_MAJOR, line 14 of the header. -/
def MILE_PROJECT_VERSION_MAJOR : Int := 1

/-- MILE_PROJECT_VERSION_MINOR, line 15 of the header. -/
def MILE_PROJECT_VERSION_MINOR : Int := 0

/-- MILE_PROJECT_VERSION_BUILD, line 16 of the header. -/
def MILE_PROJECT_VERSION_BUILD : Int := 360

/-- MILE_PROJECT_VERSION_REVISION, line 17 of the header. -/
def MILE_PROJECT_VERSION_REVISION : Int := 0

/-- MILE_PROJECT_COMPANY_NAME, lines 21 and 22 of the header. -/
def MILE_PROJECT_COMPANY_NAME : String := "Project Mile"

/-- MILE_PROJECT_FILE_DESCRIPTION, lines 23 and 24 of the header. -/
def MILE_PROJECT_FILE_DESCRIPTION : String := "Mile.Xaml"

/-- MILE_PROJECT_INTERNAL_NAME, lines 25 and 26 of the header. -/
def MILE_PROJECT_INTERNAL_NAME : String := "Mile.Xaml"

/-- MILE_PROJECT_LEGAL_COPYRIGHT, lines 27 and 28 of the header. -/
def MILE_PROJECT_LEGAL_COPYRIGHT : String := "© Project Mile. All rights reserved."

/-- MILE_PROJECT_ORIGINAL_FILENAME, lines 29 and 30 of the header. -/
def MILE_PROJECT_ORIGINAL_FILENAME : String := "Mile.Xaml.dll"

/-- MILE_PROJECT_PRODUCT_NAME, lines 31 and 32 of the header. -/
def MILE_PROJECT_PRODUCT_NAME : String := "Mile.Xaml"

/-- The static table of name/value pairs the header provides, in file order:
one entry per object-like definition between the guard and the final endif.
The commented-out line 19 (MILE_PROJECT_VERSION_TAG) contributes no entry. -/
def projectPropertiesTable : List (String × PropValue) :=
  [ ("MILE_PROJECT_VERSION_MAJOR", PropValue.intVal MILE_PROJECT_VERSION_MAJOR),
    ("MILE_PROJECT_VERSION_MINOR", PropValue.intVal MILE_PROJECT_VERSION_MINOR),
    ("MILE_PROJECT_VERSION_BUILD", PropValue.intVal MILE_PROJECT_VERSION_BUILD),
    ("MILE_PROJECT_VERSION_REVISION", PropValue.intVal MILE_PROJECT_VERSION_REVISION),
    ("MILE_PROJECT_COMPANY_NAME", PropValue.strVal MILE_PROJECT_COMPANY_NAME),
    ("MILE_PROJECT_FILE_DESCRIPTION", PropValue.strVal MILE_PROJECT_FILE_DESCRIPTION),
    ("MILE_PROJECT_INTERNAL_NAME", PropValue.strVal MILE_PROJECT_INTERNAL_NAME),
    ("MILE_PROJECT_LEGAL_COPYRIGHT", PropValue.strVal MILE_PROJECT_LEGAL_COPYRIGHT),
    ("MILE_PROJECT_ORIGINAL_FILENAME", PropValue.strVal MILE_PROJECT_ORIGINAL_FILENAME),
    ("MILE_PROJECT_PRODUCT_NAME", PropValue.strVal MILE_PROJECT_PRODUCT_NAME) ]

/-- Reading a name from a table of definitions: the first matching entry wins,
an undefined name yields none. -/
def lookupProp : List (String × PropValue) → String → Option PropValue
  | [], _ => none
  | p :: t, n => if p.1 == n then some p.2 else lookupProp t n

/-- The implicit ProjectProperties record of the data model: four integer
version components, an optional version tag, and six strings. -/
structure ProjectProperties where
  versionMajor : Int
  versionMinor : Int
  versionBuild : Int
  versionRevision : Int
  versionTag : Option String
  companyName : String
  fileDescription : String
  internalName : String
  legalCopyright : String
  originalFilename : String
  productName : String
  deriving DecidableEq, Repr

/-- The record the header embeds: each field is the corresponding constant;
versionTag is none because line 19 defining MILE_PROJECT_VERSION_TAG is
commented out. -/
def mileXamlProperties : ProjectProperties :=
  ⟨MILE_PROJECT_VERSION_MAJOR, MILE_PROJECT_VERSION_MINOR,
   MILE_PROJECT_VERSION_BUILD, MILE_PROJECT_VERSION_REVISION,
   none,
   MILE_PROJECT_COMPANY_NAME, MILE_PROJECT_FILE_DESCRIPTION,
   MILE_PROJECT_INTERNAL_NAME, MILE_PROJECT_LEGAL_COPYRIGHT,
   MILE_PROJECT_ORIGINAL_FILENAME, MILE_PROJECT_PRODUCT_NAME⟩

/-- The pairs the system overview of the spec names for the static table:
product name, the four version components, company name, copyright string,
file description and original filename, rendered as the names of the
corresponding definitions. Written from the words of the spec, to be compared
with projectPropertiesTable taken from the source. -/
def systemOverviewPairNames : List String :=
  [ "MILE_PROJECT_PRODUCT_NAME",
    "MILE_PROJECT_VERSION_MAJOR",
    "MILE_PROJECT_VERSION_MINOR",
    "MILE_PROJECT_VERSION_BUILD",
    "MILE_PROJECT_VERSION_REVISION",
    "MILE_PROJECT_COMPANY_NAME",
    "MILE_PROJECT_LEGAL_COPYRIGHT",
    "MILE_PROJECT_FILE_DESCRIPTION",
    "MILE_PROJECT_ORIGINAL_FILENAME" ]

/-- Preprocessing state for the inclusion model: the definitions accumulated
so far and how many times the trailing Mile.Project.Version.h inclusion has
been processed. -/
structure PreprocessState where
  defines : List (String × PropValue)
  versionHeaderInclusions : Nat
  deriving DecidableEq, Repr

/-- Whether a name is currently defined. -/
def isDefined (s : PreprocessState) (n : String) : Bool :=
  s.defines.any (fun p => p.1 == n)

/-- The definitions contributed by the guarded body of the header: the guard
name itself (line 12) followed by the ten property definitions. -/
def guardBodyDefines : List (String × PropValue) :=
  ("MILE_PROJECT_PROPERTIES", PropValue.emptyVal) :: projectPropertiesTable

/-- Processing one inclusion of Mile.Project.Properties.h: if the guard
MILE_PROJECT_PROPERTIES is not yet defined the guarded body adds its
definitions, otherwise it is skipped; in both cases the trailing inclusion
of Mile.Project.Version.h, which stands after the endif on line 34, is
processed. -/
def includePropertiesHeader (s : PreprocessState) : PreprocessState :=
  let s1 : PreprocessState :=
    if isDefined s "MILE_PROJECT_PROPERTIES" then s
    else ⟨s.defines ++ guardBodyDefines, s.versionHeaderInclusions⟩
  ⟨s1.defines, s1.versionHeaderInclusions + 1⟩

/-- Helper: a name among the keys of a table is found by lookupProp. -/
lemma lookup_isSome_of_mem_keys :
    ∀ (l : List (String × PropValue)) (n : String),
      n ∈ l.map Prod.fst → (lookupProp l n).isSome = true := by
  intro l
  induction l with
  | nil => intro n hn; simp at hn
  | cons p t ih =>
    intro n hn
    by_cases h : p.1 == n
    · simp [lookupProp, h]
    · have hnt : n ∈ t.map Prod.fst := by
        rw [List.map_cons] at hn
        rcases List.mem_cons.mp hn with h1 | h1
        · exact absurd (by simp [h1]) h
        · exact h1
      simpa [lookupProp, h] using ih n hnt

/-- Helper: in a table whose keys are pairwise distinct, two entries with the
same key carry the same value. -/
lemma value_unique_of_nodup_keys :
    ∀ (l : List (String × PropValue)), (l.map Prod.fst).Nodup →
      ∀ n v w, (n, v) ∈ l → (n, w) ∈ l → v = w := by
  intro l
  induction l with
  | nil => intro _ n v w hv _; simp at hv
  | cons p t ih =>
    intro hl n v w hv hw
    rw [List.map_cons] at hl
    have hl' := List.nodup_cons.mp hl
    rcases List.mem_cons.mp hv with h1 | h1 <;> rcases List.mem_cons.mp hw with h2 | h2
    · exact congrArg Prod.snd (h1.trans h2.symm)
    · exfalso
      apply hl'.1
      have hpn : p.1 = n := (congrArg Prod.fst h1).symm
      rw [hpn]
      exact List.mem_map_of_mem Prod.fst h2
    · exfalso
      apply hl'.1
      have hpn : p.1 = n := (congrArg Prod.fst h2).symm
      rw [hpn]
      exact List.mem_map_of_mem Prod.fst h1
    · exact ih hl'.2 n v w h1 h2

/-- Helper: isDefined only inspects the accumulated definitions. -/
lemma isDefined_mk (l : List (String × PropValue)) (k : Nat) (n : String) :
    isDefined ⟨l, k⟩ n = l.any (fun p => p.1 == n) := rfl

/-- Helper: including the header when the guard is already defined only
processes the trailing version-header inclusion. -/
lemma includeProperties_of_defined (s : PreprocessState)
    (h : isDefined s "MILE_PROJECT_PROPERTIES" = true) :
    includePropertiesHeader s = ⟨s.defines, s.versionHeaderInclusions + 1⟩ := by
  simp only [includePropertiesHeader]
  rw [if_pos h]

/-- Helper: including the header when the guard is not yet defined appends the
guarded body and processes the trailing version-header inclusion. -/
lemma includeProperties_of_undefined (s : PreprocessState)
    (h : ¬ isDefined s "MILE_PROJECT_PROPERTIES" = true) :
    includePropertiesHeader s =
      ⟨s.defines ++ guardBodyDefines, s.versionHeaderInclusions + 1⟩ := by
  simp only [includePropertiesHeader]
  rw [if_neg h]

/-- Helper: after one inclusion of the header the guard name is defined. -/
lemma guard_defined_after_include (s : PreprocessState) :
    isDefined (includePropertiesHeader s) "MILE_PROJECT_PROPERTIES" = true := by
  by_cases h : isDefined s "MILE_PROJECT_PROPERTIES"
  · rw [includeProperties_of_defined s h, isDefined_mk]
    exact h
  · rw [includeProperties_of_undefined s h, isDefined_mk, List.any_append]
    have hg : guardBodyDefines.any
        (fun p => p.1 == "MILE_PROJECT_PROPERTIES") = true := by decide
    rw [hg, Bool.or_true]

/-- C1: the four version constants equal the intended release values, both as
named constants and as the fields of the embedded record: major 1, minor 0,
build 360, revision 0. -/
theorem version_constants_eq_release_values :
    MILE_PROJECT_VERSION_MAJOR = 1 ∧ MILE_PROJECT_VERSION_MINOR = 0 ∧
    MILE_PROJECT_VERSION_BUILD = 360 ∧ MILE_PROJECT_VERSION_REVISION = 0 ∧
    mileXamlProperties.versionMajor = 1 ∧ mileXamlProperties.versionMinor = 0 ∧
    mileXamlProperties.versionBuild = 360 ∧ mileXamlProperties.versionRevision = 0 :=
  ⟨rfl, rfl, rfl, rfl, rfl, rfl, rfl, rfl⟩

/-- C2: each string constant of the header equals its intended literal. -/
theorem string_constants_eq_literals :
    MILE_PROJECT_COMPANY_NAME = "Project Mile" ∧
    MILE_PROJECT_FILE_DESCRIPTION = "Mile.Xaml" ∧
    MILE_PROJECT_INTERNAL_NAME = "Mile.Xaml" ∧
    MILE_PROJECT_LEGAL_COPYRIGHT = "© Project Mile. All rights reserved." ∧
    MILE_PROJECT_ORIGINAL_FILENAME = "Mile.Xaml.dll" ∧
    MILE_PROJECT_PRODUCT_NAME = "Mile.Xaml" :=
  ⟨rfl, rfl, rfl, rfl, rfl, rfl⟩

/-- C3: the ProjectProperties record consists exactly of the eleven listed
fields: two records agreeing on those fields are equal, so no further field
can distinguish them. -/
theorem projectProperties_fields_exactly (p q : ProjectProperties)
    (h1 : p.versionMajor = q.versionMajor)
    (h2 : p.versionMinor = q.versionMinor)
    (h3 : p.versionBuild = q.versionBuild)
    (h4 : p.versionRevision = q.versionRevision)
    (h5 : p.versionTag = q.versionTag)
    (h6 : p.companyName = q.companyName)
    (h7 : p.fileDescription = q.fileDescription)
    (h8 : p.internalName = q.internalName)
    (h9 : p.legalCopyright = q.legalCopyright)
    (h10 : p.originalFilename = q.originalFilename)
    (h11 : p.productName = q.productName) : p = q := by
  cases p
  cases q
  simp_all

/-- Witness for C3 at a concrete pair of records. -/
theorem projectProperties_fields_exactly_witness :
    mileXamlProperties =
      ⟨1, 0, 360, 0, none, "Project Mile", "Mile.Xaml", "Mile.Xaml",
       "© Project Mile. All rights reserved.", "Mile.Xaml.dll", "Mile.Xaml"⟩ :=
  projectProperties_fields_exactly _ _ rfl rfl rfl rfl rfl rfl rfl rfl rfl rfl rfl

/-- C4 counterexample: the static table is not exactly the pairs named in the
system overview, because the header also defines the internal name, which the
overview list omits. -/
theorem table_has_internal_name_beyond_overview :
    "MILE_PROJECT_INTERNAL_NAME" ∈ projectPropertiesTable.map Prod.fst ∧
    "MILE_PROJECT_INTERNAL_NAME" ∉ systemOverviewPairNames := by
  constructor
  · simp [projectPropertiesTable]
  · simp [systemOverviewPairNames]

/-- C4 amended: the names of the static table are exactly the pairs named in
the system overview together with the internal name. -/
theorem table_names_are_overview_plus_internal :
    ∀ n, n ∈ projectPropertiesTable.map Prod.fst ↔
      (n ∈ systemOverviewPairNames ∨ n = "MILE_PROJECT_INTERNAL_NAME") := by
  intro n
  simp only [projectPropertiesTable, systemOverviewPairNames, List.map_cons,
    List.map_nil, List.mem_cons, List.not_mem_nil, or_false]
  tauto

/-- C5: the version tag is optional and carries no value in this release: the
field of the embedded record is none and looking the name up in the table
yields none, since the definition on line 19 is commented out. -/
theorem versionTag_absent :
    mileXamlProperties.versionTag = none ∧
    lookupProp projectPropertiesTable "MILE_PROJECT_VERSION_TAG" = none := by
  constructor
  · rfl
  · decide

/-- C6: the table is immutable: every defined name occurs exactly once among
the keys, and any two entries read under the same name carry the identical
value. -/
theorem table_defines_once_and_reads_agree :
    (∀ n, n ∈ projectPropertiesTable.map Prod.fst →
      (projectPropertiesTable.map Prod.fst).count n = 1) ∧
    (∀ n v w, (n, v) ∈ projectPropertiesTable →
      (n, w) ∈ projectPropertiesTable → v = w) := by
  have hnd : (projectPropertiesTable.map Prod.fst).Nodup := by decide
  exact ⟨fun n hn => List.count_eq_one_of_mem hnd hn,
         value_unique_of_nodup_keys projectPropertiesTable hnd⟩

/-- Witness for C6 at the build-number entry. -/
theorem table_defines_once_and_reads_agree_witness :
    (projectPropertiesTable.map Prod.fst).count "MILE_PROJECT_VERSION_BUILD" = 1 ∧
    PropValue.intVal 360 = PropValue.intVal 360 :=
  ⟨table_defines_once_and_reads_agree.1 "MILE_PROJECT_VERSION_BUILD" (by decide),
   table_defines_once_and_reads_agree.2 "MILE_PROJECT_VERSION_BUILD"
     (PropValue.intVal 360) (PropValue.intVal 360) (by decide) (by decide)⟩

/-- C7: reading any defined constant is total: looking up any key of the
table always returns its value, with no failing branch reachable. -/
theorem lookup_defined_total :
    ∀ n, n ∈ projectPropertiesTable.map Prod.fst →
      (lookupProp projectPropertiesTable n).isSome = true :=
  fun n hn => lookup_isSome_of_mem_keys projectPropertiesTable n hn

/-- Witness for C7 at the product-name entry. -/
theorem lookup_defined_total_witness :
    (lookupProp projectPropertiesTable "MILE_PROJECT_PRODUCT_NAME").isSome = true :=
  lookup_defined_total "MILE_PROJECT_PRODUCT_NAME" (by decide)

/-- C8: re-inclusion is idempotent for the definitions, since the guard makes
the second pass define nothing new, but the trailing inclusion of
Mile.Project.Version.h stands outside the guard and is processed again. -/
theorem reinclusion_idempotent_defines_version_again (s : PreprocessState) :
    (includePropertiesHeader (includePropertiesHeader s)).defines =
      (includePropertiesHeader s).defines ∧
    (includePropertiesHeader (includePropertiesHeader s)).versionHeaderInclusions =
      (includePropertiesHeader s).versionHeaderInclusions + 1 := by
  rw [includeProperties_of_defined (includePropertiesHeader s)
    (guard_defined_after_include s)]
  exact ⟨rfl, rfl⟩

/-- Witness for C8 at the empty initial state. -/
theorem reinclusion_idempotent_defines_version_again_witness :
    (includePropertiesHeader (includePropertiesHeader ⟨[], 0⟩)).defines =
      (includePropertiesHeader (⟨[], 0⟩ : PreprocessState)).defines ∧
    (includePropertiesHeader (includePropertiesHeader ⟨[], 0⟩)).versionHeaderInclusions =
      (includePropertiesHeader (⟨[], 0⟩ : PreprocessState)).versionHeaderInclusions + 1 :=
  reinclusion_idempotent_defines_version_again ⟨[], 0⟩

/-- C9: every one of the four version components is nonnegative and strictly
below 2 to the 16th, so each fits the 16-bit word of a version resource. -/
theorem version_components_fit_word16 :
    (0 ≤ MILE_PROJECT_VERSION_MAJOR ∧ MILE_PROJECT_VERSION_MAJOR < 2 ^ 16) ∧
    (0 ≤ MILE_PROJECT_VERSION_MINOR ∧ MILE_PROJECT_VERSION_MINOR < 2 ^ 16) ∧
    (0 ≤ MILE_PROJECT_VERSION_BUILD ∧ MILE_PROJECT_VERSION_BUILD < 2 ^ 16) ∧
    (0 ≤ MILE_PROJECT_VERSION_REVISION ∧ MILE_PROJECT_VERSION_REVISION < 2 ^ 16) := by
  decide

/-- C10: the naming constants are mutually consistent: file description,
internal name and product name are the identical string, and the original
filename is the product name with the dll suffix appended. -/
theorem naming_constants_consistent :
    MILE_PROJECT_FILE_DESCRIPTION = MILE_PROJECT_INTERNAL_NAME ∧
    MILE_PROJECT_INTERNAL_NAME = MILE_PROJECT_PRODUCT_NAME ∧
    MILE_PROJECT_PRODUCT_NAME = "Mile.Xaml" ∧
    MILE_PROJECT_ORIGINAL_FILENAME = MILE_PROJECT_PRODUCT_NAME ++ ".dll" := by
  refine ⟨rfl, rfl, rfl, ?_⟩
  decide
